import Mathlib

/-!
Verification of the Literature Review Dashboard core (src/app.py,
src/event_logger.py) against its natural-language specification.

Shallow embedding conventions:
- Python values that flow through `json.loads` / `json.dumps` and the
  `event_value` payloads are modelled by the inductive `PyVal`.
- Machine floats produced by `total_seconds()` and by `/` on ints are
  modelled by `ℚ` (all quantities involved are exact decimals).
- Fallible calls (the Gemini client, file I/O) are modelled with
  `Except` / `Option`: `Except.error e` models a raised exception with
  message `e`, `Option.none` models Python `None`.
- External stdlib collaborators that the repository merely calls
  (`json.loads`, `datetime.fromisoformat`) are passed in as function
  parameters, so every theorem quantifies over their behaviour.
-/

/-- Model of a Python value as produced by `json.loads` or stored in an
`event_value` payload. -/
inductive PyVal where
  | str (s : String)
  | int (n : Int)
  | bool (b : Bool)
  | null
  | list (l : List PyVal)
  | dict (l : List (String × PyVal))

/-- Model of a paper record as normalised by `search_semantic_scholar`
(src/app.py).  `id` and `title` are `Option String` because the source
dict can hold Python `None` for either (`item.get('paperId')`,
`item.get('title', 'Untitled')`). -/
structure Paper where
  id : Option String
  title : Option String
  authors : List String
  year : Option Int
  journal : String
  abstract : Option String
  keywords : List String
  url : Option String
deriving DecidableEq, Repr

/-- Python truthiness of an optional string: `None` and the empty string
are falsy (`if pid and ...`). -/
def strTruthy : Option String → Bool
  | Option.none => false
  | some s => !(s = "")

/-- Python whitespace as recognised by `str.strip()` / `str.split()`. -/
def isPyWs (c : Char) : Bool :=
  c = ' ' || c = '\t' || c = '\n' || c = '\r' || c = '\x0b' || c = '\x0c'

/-- Python `str.strip()` with no argument. -/
def pyStrip (s : String) : String :=
  ⟨((s.data.dropWhile isPyWs).reverse.dropWhile isPyWs).reverse⟩

/-- ASCII lower-casing of one character (all strings handled by the
source are ASCII). -/
def asciiLower (c : Char) : Char :=
  if 'A' ≤ c && c ≤ 'Z' then Char.ofNat (c.toNat + 32) else c

/-- ASCII upper-casing of one character. -/
def asciiUpper (c : Char) : Char :=
  if 'a' ≤ c && c ≤ 'z' then Char.ofNat (c.toNat - 32) else c

/-- Python `str.lower()` (on the ASCII strings the source handles). -/
def pyLower (s : String) : String := ⟨s.data.map asciiLower⟩

/-- Python `str.upper()` (on the ASCII strings the source handles). -/
def pyUpper (s : String) : String := ⟨s.data.map asciiUpper⟩

/-- Python `str.startswith(pre)`. -/
def pyStartsWith (s pre : String) : Bool :=
  pre.data.isPrefixOf s.data

/-- Python `str.endswith(suf)`. -/
def pyEndsWith (s suf : String) : Bool :=
  suf.data.reverse.isPrefixOf s.data.reverse

/-- Python slicing `s[n:]` (by code point, as in Python). -/
def pyDrop (s : String) (n : Nat) : String := ⟨s.data.drop n⟩

/-- Python slicing `s[:-n]`. -/
def pyDropRight (s : String) (n : Nat) : String :=
  ⟨s.data.take (s.data.length - n)⟩

/-- Scan for the first separator; used by `pyAfterFirst`. -/
def afterFirstGo (c : Char) : List Char → Option (List Char)
  | [] => Option.none
  | x :: xs => if x = c then some xs else afterFirstGo c xs

/-- Python `s.split(c, 1)[1]` when the separator occurs, `None`
otherwise: everything after the first occurrence of `c`. -/
def pyAfterFirst (c : Char) (s : String) : Option String :=
  (afterFirstGo c s.data).map fun l => ⟨l⟩

/-- Python `s.split(c)[0]`: the prefix before the first occurrence of
`c` (the whole string if `c` is absent). -/
def pyBeforeFirst (c : Char) (s : String) : String :=
  ⟨s.data.takeWhile fun x => !(x = c)⟩

/-- `(paper.get('title') or '').strip().lower()` from `deduplicate_papers`
(src/app.py lines 902-917). -/
def normTitle (p : Paper) : String :=
  pyLower (pyStrip (p.title.getD ""))

/-- The loop body of `deduplicate_papers` (src/app.py lines 900-917):
`seen_ids` / `seen_titles` accumulate the keys of the papers kept so far;
a paper is skipped when its truthy id is in `seen_ids` or its non-empty
normalised title is in `seen_titles`, and the sets grow only when a paper
is appended to `unique`. -/
def dedupGo (seen_ids seen_titles : List String) : List Paper → List Paper
  | [] => []
  | paper :: rest =>
    let pid := paper.id
    let norm_title := normTitle paper
    if strTruthy pid && seen_ids.contains (pid.getD "") then
      dedupGo seen_ids seen_titles rest
    else if !(norm_title = "") && seen_titles.contains norm_title then
      dedupGo seen_ids seen_titles rest
    else
      let seen_ids' := if strTruthy pid then pid.getD "" :: seen_ids else seen_ids
      let seen_titles' := if !(norm_title = "") then norm_title :: seen_titles else seen_titles
      paper :: dedupGo seen_ids' seen_titles' rest

/-- `deduplicate_papers` (src/app.py lines 900-917). -/
def deduplicate_papers (papers : List Paper) : List Paper :=
  dedupGo [] [] papers

/-- The truthy external ids of a list of papers (contents of `seen_ids`
after the papers have been kept). -/
def keptIds (l : List Paper) : List String :=
  l.filterMap fun p => if strTruthy p.id then some (p.id.getD "") else Option.none

/-- The non-empty normalised titles of a list of papers (contents of
`seen_titles` after the papers have been kept). -/
def keptTitles (l : List Paper) : List String :=
  (l.map normTitle).filter fun t => !(t = "")

/-- The drop condition of `deduplicate_papers` for a candidate paper,
relative to explicit seen-id and seen-title sets. -/
def dropCond (p : Paper) (ids titles : List String) : Bool :=
  (strTruthy p.id && ids.contains (p.id.getD "")) ||
    (!(normTitle p = "") && titles.contains (normTitle p))

/-- Renders an optional string the way a Python f-string renders a value
that may be `None`. -/
def pyShow : Option String → String
  | Option.none => "None"
  | some s => s

/-- `get_gemini_response` (src/app.py lines 40-52).  The underlying client
call `_gemini_client.models.generate_content` is the external LLM Gateway,
modelled as `gemini : String → Except String (Option String)`:
`Except.error e` models a raised exception with message `str(e)` and
`Except.ok t` models a successful response whose `.text` attribute is `t`
(`Option.none` for a `None` text).  The whole Python body runs inside
`try/except`, so the function never raises: an exception becomes the
sentinel string `"Error: " + str(e)`.  The optional `context` argument is
omitted because every call site modelled here passes `context=""`, for
which `full_prompt` is exactly `prompt`. -/
def get_gemini_response (gemini : String → Except String (Option String))
    (prompt : String) : Option String :=
  match gemini prompt with
  | Except.error e => some ("Error: " ++ e)
  | Except.ok t => t

/-- The relevance-judging prompt built in `filter_by_relevance`
(src/app.py lines 926-936). -/
def relevancePrompt (description : String) (p : Paper) : String :=
  "You are an academic research assistant. Determine whether the following paper " ++
  "is relevant to the user\x27s research description.\n\n" ++
  "User\x27s research description: " ++ description ++ "\n\n" ++
  "Paper title: " ++ pyShow p.title ++ "\n" ++
  "Paper abstract: " ++ pyShow p.abstract ++ "\n\n" ++
  "Respond with EXACTLY one line starting with either RELEVANT or NOT_RELEVANT, " ++
  "followed by a brief reason. Example:\n" ++
  "RELEVANT: This paper directly addresses attention mechanisms for segmentation."

/-- The verdict-processing step of `filter_by_relevance` (src/app.py
lines 937-943).  Input is the value returned by `get_gemini_response`.
When the response text is `None`, `response.strip()` raises
`AttributeError`, which the `except Exception` branch turns into
`is_relevant = True` with the error verdict; a string response cannot
raise, so the branch is the verdict check itself. -/
def judgeResponse (resp : Option String) : Bool × String :=
  match resp with
  | Option.none => (true, "KEPT (error during evaluation)")
  | some r =>
    let verdict := pyBeforeFirst '\n' (pyStrip r)
    (pyStartsWith (pyUpper verdict) "RELEVANT" &&
        !(pyStartsWith (pyUpper verdict) "NOT_RELEVANT"),
      verdict)

/-- The `(is_relevant, verdict)` pair computed by `filter_by_relevance`
for one paper; this is what the progress callback records. -/
def judgePaper (gemini : String → Except String (Option String))
    (description : String) (p : Paper) : Bool × String :=
  judgeResponse (get_gemini_response gemini (relevancePrompt description p))

/-- `filter_by_relevance` (src/app.py lines 920-951): one pass appending
each paper with `is_relevant = True` to `aligned`, in order. -/
def filter_by_relevance (gemini : String → Except String (Option String))
    (papers : List Paper) (description : String) : List Paper :=
  papers.filter fun p => (judgePaper gemini description p).1

/-- The per-paper verdict texts recorded (via the progress callback) by
`filter_by_relevance`, aligned with the input list. -/
def relevanceVerdicts (gemini : String → Except String (Option String))
    (papers : List Paper) (description : String) : List String :=
  papers.map fun p => (judgePaper gemini description p).2

/-- The keyword-extraction prompt built in `extract_search_keywords`
(src/app.py lines 854-862). -/
def extractPrompt (description : String) : String :=
  "You are a research librarian. Given the following research description, " ++
  "produce 3 to 4 diverse keyword sets that can be used to search academic databases. " ++
  "The first set should be direct keywords from the description. " ++
  "The remaining sets should be rephrased or synonym variants for broader coverage.\n\n" ++
  "Return ONLY a JSON array of arrays. Each inner array is a list of keyword strings. " ++
  "Example: [[\"attention mechanism\", \"image segmentation\"], [\"self-attention\", \"semantic segmentation\"]]\n\n" ++
  "Research description: " ++ description

/-- The defensive response-cleaning step of `extract_search_keywords`
(src/app.py lines 865-872): strip a code fence, a trailing fence, and a
leading `json` language tag.  `text.split("\n", 1)[1]` is everything after
the first newline. -/
def cleanResponse (response : String) : String :=
  let text := pyStrip response
  let text :=
    if pyStartsWith text "\x60\x60\x60" then
      match pyAfterFirst '\n' text with
      | some rest => rest
      | Option.none => pyDrop text 3
    else text
  let text := if pyEndsWith text "\x60\x60\x60" then pyDropRight text 3 else text
  let text := pyStrip text
  if pyStartsWith (pyLower text) "json" then pyStrip (pyDrop text 4) else text

/-- Accumulating scan for `pySplitWs`; `acc` holds the reversed current
word. -/
def splitWsGo : List Char → List Char → List String
  | [], acc => if acc = [] then [] else [⟨acc.reverse⟩]
  | x :: xs, acc =>
    if isPyWs x then
      if acc = [] then splitWsGo xs []
      else (⟨acc.reverse⟩ : String) :: splitWsGo xs []
    else splitWsGo xs (x :: acc)

/-- Python `str.split()` with no argument: split on whitespace runs,
discarding empty pieces. -/
def pySplitWs (s : String) : List String :=
  splitWsGo s.data []

/-- The chunking loop of the `extract_search_keywords` fallback
(src/app.py lines 882-885): `for i in range(0, len(words), chunk_size)`
collecting `words[i:i+chunk_size]`.  Only called with `chunk_size > 0`
(the `chunk_size == 0` case returns earlier in the source). -/
def chunksOf (n : Nat) (l : List String) : List (List String) :=
  if h : n = 0 then [l]
  else if h2 : l = [] then []
  else l.take n :: chunksOf n (l.drop n)
termination_by l.length
decreasing_by
  simp only [List.length_drop]
  have : 0 < l.length := List.length_pos.mpr h2
  omega

/-- Is a parsed Python value a `list`? (`isinstance(s, list)`). -/
def isPyList : PyVal → Bool
  | PyVal.list _ => true
  | _ => false

/-- `isinstance(keyword_sets, list) and all(isinstance(s, list) for s in
keyword_sets)` (src/app.py line 875). -/
def isListOfLists : PyVal → Bool
  | PyVal.list l => l.all isPyList
  | _ => false

/-- The inner lists of a parsed list-of-lists value (the source returns
the parsed value unchanged; the default branch is unreachable under
`isListOfLists`). -/
def asLists : PyVal → List (List PyVal)
  | PyVal.list l => l.map fun v => match v with | PyVal.list inner => inner | _ => []
  | _ => []

/-- The word-chunking fallback of `extract_search_keywords` (src/app.py
lines 879-886). -/
def fallbackKeywords (description : String) : List (List PyVal) :=
  let words := pySplitWs description
  let chunk_size := min 4 words.length
  if chunk_size = 0 then [[PyVal.str description]]
  else
    match chunksOf chunk_size words with
    | [] => [[PyVal.str description]]
    | c :: _ => [c.map PyVal.str]

/-- `extract_search_keywords` (src/app.py lines 852-886).  `loads` models
the external `json.loads`: `Option.none` models a raised parse error.  A
`None` response text makes `response.strip()` raise inside the `try`, so
it also lands in the fallback. -/
def extract_search_keywords (gemini : String → Except String (Option String))
    (loads : String → Option PyVal) (description : String) : List (List PyVal) :=
  match get_gemini_response gemini (extractPrompt description) with
  | Option.none => fallbackKeywords description
  | some response =>
    let text := cleanResponse response
    match loads text with
    | Option.none => fallbackKeywords description
    | some keyword_sets =>
      if isListOfLists keyword_sets then asLists keyword_sets
      else fallbackKeywords description

/-- Model of one event record as written by `log_event`
(src/event_logger.py lines 69-78) and consumed by
`compute_derived_metrics` / `events_to_csv_string`.  `sect` embeds the
`"section"` field (a Lean keyword).  `timestamp` is the ISO-8601 string
stored in the record; metric computations receive the external
`datetime.fromisoformat` as a parameter turning it into an instant. -/
structure Event where
  participant_id : String
  participant_name : String
  condition : String
  task_id : String
  sect : String
  event_type : String
  event_value : PyVal
  timestamp : String

/-- The Streamlit session state read by `log_event` and
`_current_condition` (src/event_logger.py lines 49-77).  Each field
models `st.session_state.get(key, default)`: `Option.none` is an absent
key, and the defaults are applied at the call sites exactly as in the
source. -/
structure SessionState where
  participant_id : Option String
  participant_name : Option String
  ai_mode : Option Bool
  task_id : Option String
  current_section_name : Option String

/-- `_current_condition` (src/event_logger.py lines 49-52) together with
`CONDITION_MAP` (lines 19-22). -/
def _current_condition (s : SessionState) : String :=
  if s.ai_mode.getD false then "B (AI model)" else "A (Manual model)"

/-- Decides whether an `Except` result is a success (no exception
propagated to the caller). -/
def exceptOk {ε α : Type} : Except ε α → Bool
  | Except.ok _ => true
  | Except.error _ => false

/-- `log_event` (src/event_logger.py lines 55-84).  `writable` models
whether `LOGS_DIR.mkdir(...)` and `open(log_path, "a")` + `write`
succeed; when `False` the `OSError` those calls raise is modelled as
`Except.error`, since the source wraps none of them in `try/except`.
`log` is the current content of the participant log (list of entries);
`now` is the ISO timestamp produced by `datetime.now(timezone.utc)`. -/
def log_event (s : SessionState) (writable : Bool) (log : List Event)
    (event_type : String) (event_value : Option PyVal) (now : String) :
    Except String (List Event) :=
  match s.participant_id with
  | Option.none => Except.ok log
  | some participant_id =>
    if participant_id = "" then Except.ok log
    else
      let entry : Event := {
        participant_id := participant_id,
        participant_name := s.participant_name.getD "",
        condition := _current_condition s,
        task_id := s.task_id.getD "",
        sect := s.current_section_name.getD "Home",
        event_type := event_type,
        event_value := event_value.getD (PyVal.dict []),
        timestamp := now }
      if writable then Except.ok (log ++ [entry])
      else Except.error "OSError"

/-- `count(etype)` inside `compute_derived_metrics`
(src/event_logger.py lines 108-109). -/
def countType (events : List Event) (etype : String) : Nat :=
  (events.filter fun e => e.event_type = etype).length

/-- Update of the inner `time_metrics[cond]` dict:
`time_metrics[cond][sec] = time_metrics[cond].get(sec, 0.0) + diff_sec`,
with Python dict semantics (update in place, new keys appended). -/
def insertInner (inner : List (String × ℚ)) (sec : String) (d : ℚ) :
    List (String × ℚ) :=
  match inner with
  | [] => [(sec, d)]
  | (s, v) :: rest =>
    if s = sec then (s, v + d) :: rest else (s, v) :: insertInner rest sec d

/-- Update of the outer `time_metrics` dict keyed by condition. -/
def insertTime (tm : List (String × List (String × ℚ))) (cond sec : String)
    (d : ℚ) : List (String × List (String × ℚ)) :=
  match tm with
  | [] => [(cond, [(sec, d)])]
  | (c, inner) :: rest =>
    if c = cond then (c, insertInner inner sec d) :: rest
    else (c, inner) :: insertTime rest cond sec d

/-- The consecutive-pair walk of the time-tracking loop
(src/event_logger.py lines 130-146): each gap, capped at 300 seconds, is
added under the earlier event\x27s `(condition, section)` key. -/
def timeLoop (fromiso : String → ℚ) :
    List Event → List (String × List (String × ℚ)) →
    List (String × List (String × ℚ))
  | curr_e :: next_e :: rest, tm =>
    let diff_sec := fromiso next_e.timestamp - fromiso curr_e.timestamp
    let diff_sec := if diff_sec > 300 then 300 else diff_sec
    timeLoop fromiso (next_e :: rest) (insertTime tm curr_e.condition curr_e.sect diff_sec)
  | _, tm => tm

/-- `if cond not in time_metrics: time_metrics[cond] = {}`
(src/event_logger.py lines 149-152). -/
def ensureCond (tm : List (String × List (String × ℚ))) (cond : String) :
    List (String × List (String × ℚ)) :=
  if (tm.lookup cond).isSome then tm else tm ++ [(cond, [])]

/-- The full `time_metrics` table (src/event_logger.py lines 129-154). -/
def timeMetricsOf (fromiso : String → ℚ) (events : List Event) :
    List (String × List (String × ℚ)) :=
  ensureCond (ensureCond (timeLoop fromiso events []) "A (Manual model)") "B (AI model)"

/-- Dictionary lookup on a parsed payload: `event_value.get(key)` when the
payload is a dict, `None`-like otherwise (the source only applies `.get`
to dict payloads). -/
def pyGet (v : PyVal) (key : String) : Option PyVal :=
  match v with
  | PyVal.dict l => l.lookup key
  | _ => Option.none

/-- Counter update for the `ai_feature_breakdown` dict
(src/event_logger.py lines 183-188). -/
def bumpCount (m : List (String × Nat)) (k : String) : List (String × Nat) :=
  match m with
  | [] => [(k, 1)]
  | (a, n) :: rest =>
    if a = k then (a, n + 1) :: rest else (a, n) :: bumpCount rest k

/-- The non-survey part of the dictionary built by
`compute_derived_metrics` (src/event_logger.py lines 101-204).  The
survey-scoring loop (lines 191-202) writes instrument-specific keys and is
modelled separately by `_compute_sus_score`, the symbol the specification
names for survey scoring. -/
structure DerivedMetrics where
  task_completion_time_seconds : Option ℚ
  num_search_queries : Nat
  num_keyword_refinements : Nat
  num_papers_opened : Nat
  num_papers_selected : Nat
  num_deep_research_link_clicks : Nat
  time_metrics : List (String × List (String × ℚ))
  ai_calls : Nat
  ai_reliance_ratio : Option ℚ
  exploration_depth : Option ℚ
  source_verification_clicks : Nat
  ai_outputs_generated : Nat
  verification_rate : Option ℚ
  deep_research_runs : Nat
  deep_research_verification_rate : Option ℚ
  ai_feature_breakdown : List (String × Nat)

/-- `compute_derived_metrics` (src/event_logger.py lines 101-204).
`fromiso` models the external `datetime.fromisoformat`, mapping a stored
timestamp string to an instant in seconds (differences of instants model
`(t1 - t0).total_seconds()`). -/
def compute_derived_metrics (fromiso : String → ℚ) (events : List Event) :
    DerivedMetrics :=
  let task_start_ev := events.find? fun e => e.event_type = "task_start"
  let task_submit_ev := events.reverse.find? fun e => e.event_type = "task_submit"
  let completion : Option ℚ :=
    match task_start_ev, task_submit_ev with
    | some s, some t => some (fromiso t.timestamp - fromiso s.timestamp)
    | _, _ => Option.none
  let search_queries := countType events "search_query"
  let ai_calls := countType events "ai_call"
  let total := ai_calls + search_queries
  let opened := countType events "paper_open"
  let selected := countType events "paper_select"
  let verifications := countType events "source_verification_click"
  let ai_outputs := countType events "ai_output_generated"
  let dr_opens := (events.filter fun e =>
    e.event_type = "source_verification_click" &&
      (match pyGet e.event_value "source_type" with
        | some (PyVal.str s) => s = "deep_research_external_link"
        | _ => false)).length
  let dr_runs := (events.filter fun e =>
    e.event_type = "ai_output_generated" &&
      (match pyGet e.event_value "feature" with
        | some (PyVal.str s) => s = "deep_research"
        | _ => false)).length
  { task_completion_time_seconds := completion,
    num_search_queries := search_queries,
    num_keyword_refinements := countType events "keyword_refine",
    num_papers_opened := opened,
    num_papers_selected := selected,
    num_deep_research_link_clicks := countType events "deep_research_link_click",
    time_metrics := timeMetricsOf fromiso events,
    ai_calls := ai_calls,
    ai_reliance_ratio := if total > 0 then some ((ai_calls : ℚ) / (total : ℚ)) else Option.none,
    exploration_depth := if selected > 0 then some ((opened : ℚ) / (selected : ℚ)) else Option.none,
    source_verification_clicks := verifications,
    ai_outputs_generated := ai_outputs,
    verification_rate := if ai_outputs > 0 then some ((verifications : ℚ) / (ai_outputs : ℚ)) else Option.none,
    deep_research_runs := dr_runs,
    deep_research_verification_rate := if dr_runs > 0 then some ((dr_opens : ℚ) / (dr_runs : ℚ)) else Option.none,
    ai_feature_breakdown := events.foldl (fun m e =>
      if e.event_type = "ai_call" then
        bumpCount m (match pyGet e.event_value "feature" with
          | some (PyVal.str f) => f
          | _ => "unknown")
      else m) [] }

/-- The response key `f"Q{i}"` of the SUS scoring loop. -/
def qKey (i : Nat) : String := "Q" ++ toString i

/-- The `for i in range(1, 11)` loop of `_compute_sus_score`
(src/event_logger.py lines 214-222), with explicit fuel (10 iterations
starting at `i = 1`).  Returns `Option.none` on the first missing
response, mirroring the early `return None`. -/
def susGo (responses : String → Option Int) : Nat → Nat → Int → Option Int
  | 0, _, total => some total
  | fuel + 1, i, total =>
    match responses (qKey i) with
    | Option.none => Option.none
    | some val =>
      susGo responses fuel (i + 1)
        (total + if i % 2 = 1 then val - 1 else 5 - val)

/-- `_compute_sus_score` (src/event_logger.py lines 207-225).  The final
`total * 2.5` on a Python int is exact, modelled in `ℚ`.  Responses are
modelled as an optional-int lookup (`responses.get(f"Q{i}")`). -/
def _compute_sus_score (responses : String → Option Int) : Option ℚ :=
  (susGo responses 10 1 0).map fun total => (total : ℚ) * 2.5

/-- Minimal-quoting CSV field encoding of `csv.DictWriter` (excel
dialect): quote a field iff it contains a delimiter, quote char or line
break, doubling embedded quotes. -/
def csvQuote (s : String) : String :=
  if s.contains ',' || s.contains '"' || s.contains '\n' || s.contains '\r' then
    "\"" ++ (s.replace "\"" "\"\"") ++ "\""
  else s

/-- JSON string-body escaping of `json.dumps` for the characters that can
appear in the modelled payloads. -/
def jsonEscape (s : String) : String :=
  (((s.replace "\\" "\\\\").replace "\"" "\\\"").replace "\n" "\\n").replace "\r" "\\r"

mutual
/-- `json.dumps(v)` with default separators, modelled for `PyVal`. -/
def jsonDumps : PyVal → String
  | PyVal.str s => "\"" ++ jsonEscape s ++ "\""
  | PyVal.int n => toString n
  | PyVal.bool b => if b then "true" else "false"
  | PyVal.null => "null"
  | PyVal.list l => "[" ++ String.intercalate ", " (jsonDumpsList l) ++ "]"
  | PyVal.dict l => "\x7b" ++ String.intercalate ", " (jsonDumpsPairs l) ++ "\x7d"

/-- Serialisation of the elements of a JSON array. -/
def jsonDumpsList : List PyVal → List String
  | [] => []
  | v :: vs => jsonDumps v :: jsonDumpsList vs

/-- Serialisation of the members of a JSON object. -/
def jsonDumpsPairs : List (String × PyVal) → List String
  | [] => []
  | (k, v) :: rest => ("\"" ++ jsonEscape k ++ "\": " ++ jsonDumps v) :: jsonDumpsPairs rest
end

/-- The header row written by `writer.writeheader()` in
`events_to_csv_string` (src/event_logger.py lines 237-242); none of the
field names needs quoting, and the excel dialect terminates rows with
CRLF. -/
def csvHeader : String :=
  "participant_id,participant_name,condition,task_id,event_type,event_value,timestamp\r\n"

/-- One data row of `events_to_csv_string` (src/event_logger.py lines
243-246): the `event_value` field is re-serialised with `json.dumps`
before CSV encoding. -/
def csvRow (e : Event) : String :=
  String.intercalate ","
    [csvQuote e.participant_id, csvQuote e.participant_name, csvQuote e.condition,
      csvQuote e.task_id, csvQuote e.event_type, csvQuote (jsonDumps e.event_value),
      csvQuote e.timestamp] ++ "\r\n"

/-- `events_to_csv_string` (src/event_logger.py lines 228-247):
`if not events: return ""` before any writer output. -/
def events_to_csv_string : List Event → String
  | [] => ""
  | events => csvHeader ++ String.join (events.map csvRow)

/-- Nested lookup in the `time_metrics` table with the 0.0 default of
`time_metrics[cond].get(sec, 0.0)`: the accumulated seconds recorded
under a `(condition, section)` key. -/
def getTime (tm : List (String × List (String × ℚ))) (c s : String) : ℚ :=
  match tm.lookup c with
  | Option.none => 0
  | some inner => (inner.lookup s).getD 0

/-- Whether a condition key is present in the `time_metrics` table
(`cond in time_metrics`). -/
def hasCondKey (tm : List (String × List (String × ℚ))) (c : String) : Bool :=
  (tm.lookup c).isSome

/-- Specification-level description of the time table: walk consecutive
event pairs, keep those whose earlier event carries the given
`(condition, section)` key, and sum the inter-event gaps capped at 300
seconds. -/
def gapSum (fromiso : String → ℚ) (events : List Event) (c s : String) : ℚ :=
  (((events.zip events.tail).filter fun pr => pr.1.condition = c ∧ pr.1.sect = s).map
    fun pr => min (fromiso pr.2.timestamp - fromiso pr.1.timestamp) 300).sum

/-- Decimal reading of an ASCII digit string. -/
def parseNatStr (s : String) : Nat :=
  s.data.foldl (fun acc c => acc * 10 + (c.toNat - 48)) 0

/-- A generic fromisoformat model for fixtures: reads the stored
timestamp as a decimal number of seconds. -/
def tsNum : String → ℚ := fun s => (parseNatStr s : ℚ)

/-- Event fixture used by concrete instances of the metric claims. -/
def mkEvent (etype ts : String) : Event :=
  { participant_id := "p1", participant_name := "", condition := "A (Manual model)",
    task_id := "T1 (Targeted Literature Search)", sect := "Home", event_type := etype,
    event_value := PyVal.dict [], timestamp := ts }

/-- An LLM Gateway whose underlying call always raises (e.g. the network
is unreachable). -/
def geminiDown : String → Except String (Option String) :=
  fun _ => Except.error "network unreachable"

/-- Paper fixture with a truthy id and title. -/
def paperA : Paper :=
  { id := some "p1", title := some "Attention Is All You Need", authors := ["Vaswani"],
    year := some 2017, journal := "NeurIPS", abstract := some "The Transformer.",
    keywords := [], url := Option.none }

/-- Paper fixture with a different id whose title differs from `paperA`
only in case and surrounding whitespace. -/
def paperB : Paper :=
  { id := some "p2", title := some "  ATTENTION is all you need ", authors := [],
    year := some 2018, journal := "Unknown", abstract := some "No abstract available.",
    keywords := [], url := Option.none }

/-- Paper fixture with neither an external id nor a title. -/
def paperVacuous : Paper :=
  { id := Option.none, title := Option.none, authors := [], year := Option.none,
    journal := "Unknown", abstract := some "No abstract available.",
    keywords := [], url := Option.none }

/-- SUS response fixture: every odd item 1, every even item 5. -/
def susAllLow : String → Option Int := fun q =>
  if q = "Q1" ∨ q = "Q3" ∨ q = "Q5" ∨ q = "Q7" ∨ q = "Q9" then some 1
  else if q = "Q2" ∨ q = "Q4" ∨ q = "Q6" ∨ q = "Q8" ∨ q = "Q10" then some 5
  else Option.none

/-- SUS response fixture: every odd item 5, every even item 1. -/
def susAllHigh : String → Option Int := fun q =>
  if q = "Q1" ∨ q = "Q3" ∨ q = "Q5" ∨ q = "Q7" ∨ q = "Q9" then some 5
  else if q = "Q2" ∨ q = "Q4" ∨ q = "Q6" ∨ q = "Q8" ∨ q = "Q10" then some 1
  else Option.none

/-- Session fixture with an established participant identity. -/
def sessionWithId : SessionState :=
  { participant_id := some "abc12345", participant_name := some "Alice",
    ai_mode := some false, task_id := some "T1 (Targeted Literature Search)",
    current_section_name := some "Home" }

/-- Session fixture before any participant identity is established. -/
def sessionNoId : SessionState :=
  { participant_id := Option.none, participant_name := Option.none,
    ai_mode := Option.none, task_id := Option.none,
    current_section_name := Option.none }

/-- Event-list fixture with three `ai_call` events and one
`search_query` event. -/
def aiMixEvents : List Event :=
  [mkEvent "ai_call" "0", mkEvent "ai_call" "10", mkEvent "ai_call" "20",
    mkEvent "search_query" "30"]

theorem ratio_eq (f : String → ℚ) (es : List Event) :
    (compute_derived_metrics f es).ai_reliance_ratio =
      if countType es "ai_call" + countType es "search_query" > 0 then
        some ((countType es "ai_call" : ℚ) /
          ((countType es "ai_call" + countType es "search_query" : Nat) : ℚ))
      else Option.none := rfl

theorem completion_eq (f : String → ℚ) (es : List Event) :
    (compute_derived_metrics f es).task_completion_time_seconds =
      match es.find? (fun e => e.event_type = "task_start"),
          es.reverse.find? (fun e => e.event_type = "task_submit") with
      | some s, some t => some (f t.timestamp - f s.timestamp)
      | _, _ => Option.none := rfl

theorem time_metrics_eq (f : String → ℚ) (es : List Event) :
    (compute_derived_metrics f es).time_metrics = timeMetricsOf f es := rfl

/-- Claim C9: `events_to_csv_string` applied to an empty event list
returns the empty string, with no header row; when at least one event
exists the output starts with the CSV header
`participant_id,participant_name,condition,task_id,event_type,event_value,timestamp`. -/
theorem csv_empty_string_no_header :
    events_to_csv_string [] = "" ∧
    ∀ (e : Event) (es : List Event), ∃ rest,
      events_to_csv_string (e :: es) = csvHeader ++ rest :=
  ⟨rfl, fun e es => ⟨String.join ((e :: es).map csvRow), rfl⟩⟩

/-- Claim C7: the AI reliance ratio is the `ai_call` count divided by the
sum of the `ai_call` and `search_query` counts, is `None` when that sum
is zero, and equals 0.75 for 3 `ai_call` and 1 `search_query` events. -/
theorem ai_reliance_ratio_spec :
    ∀ (f : String → ℚ) (events : List Event),
      (countType events "ai_call" + countType events "search_query" = 0 →
        (compute_derived_metrics f events).ai_reliance_ratio = Option.none) ∧
      (∀ a s : Nat, countType events "ai_call" = a → countType events "search_query" = s →
        0 < a + s →
        (compute_derived_metrics f events).ai_reliance_ratio =
          some ((a : ℚ) / ((a : ℚ) + (s : ℚ)))) ∧
      (countType events "ai_call" = 3 → countType events "search_query" = 1 →
        (compute_derived_metrics f events).ai_reliance_ratio = some (3 / 4)) := by
  intro f events
  refine ⟨?_, ?_, ?_⟩
  · intro h
    rw [ratio_eq, if_neg]
    omega
  · intro a s ha hs hpos
    rw [ratio_eq, ha, hs, if_pos hpos]
    congr 1
    push_cast
    ring
  · intro ha hs
    rw [ratio_eq, ha, hs, if_pos (by norm_num)]
    norm_num

/-- Witness for C7 at a concrete event list with 3 `ai_call` and 1
`search_query` events. -/
theorem ai_reliance_ratio_spec_witness :
    (compute_derived_metrics tsNum aiMixEvents).ai_reliance_ratio = some (3 / 4) :=
  (ai_reliance_ratio_spec tsNum aiMixEvents).2.2 (by decide) (by decide)

/-- Claim C10: when a `task_start` and a `task_submit` event both exist,
`task_completion_time_seconds` is the signed difference between the last
`task_submit` timestamp and the first `task_start` timestamp; with no
ordering guard it is negative (not `None`) whenever the last submit
precedes the first start. -/
theorem task_completion_time_signed :
    ∀ (f : String → ℚ) (events : List Event) (es et : Event),
      events.find? (fun e => e.event_type = "task_start") = some es →
      events.reverse.find? (fun e => e.event_type = "task_submit") = some et →
      (compute_derived_metrics f events).task_completion_time_seconds =
        some (f et.timestamp - f es.timestamp) ∧
      (f et.timestamp < f es.timestamp →
        ∃ v, (compute_derived_metrics f events).task_completion_time_seconds = some v ∧
          v < 0) := by
  intro f events es et hstart hsubmit
  have hval : (compute_derived_metrics f events).task_completion_time_seconds =
      some (f et.timestamp - f es.timestamp) := by
    rw [completion_eq, hstart, hsubmit]
  refine ⟨hval, fun hlt => ⟨f et.timestamp - f es.timestamp, hval, by linarith⟩⟩

/-- Witness for C10: a log whose only `task_submit` (at 100 s) precedes
its only `task_start` (at 400 s) yields completion time −300, not
`None`. -/
theorem task_completion_time_signed_witness :
    (compute_derived_metrics tsNum
      [mkEvent "task_submit" "100", mkEvent "task_start" "400"]).task_completion_time_seconds =
      some (-300) := by
  have h := task_completion_time_signed tsNum
    [mkEvent "task_submit" "100", mkEvent "task_start" "400"]
    (mkEvent "task_start" "400") (mkEvent "task_submit" "100") rfl rfl
  rw [h.1]
  norm_num [tsNum, mkEvent, show parseNatStr "100" = 100 from by decide,
    show parseNatStr "400" = 400 from by decide]

/-- Counterexample to claim C2: with a participant identity established
and the underlying storage unwritable, `log_event` propagates the
`OSError` raised by `open` (there is no `try/except` in the source), so
an error is surfaced to the caller. -/
theorem log_event_unwritable_raises :
    exceptOk (log_event sessionWithId false [] "task_start" Option.none
      "2026-01-01T00:00:00+00:00") = false := rfl

/-- Claim C2 as amended: `log_event` is a silent no-op (no error, log
unchanged) whenever no participant identity is established, for any
storage state; but when an identity is established and the storage is
unwritable, the append raises instead of being a silent best-effort
write, and when the storage is writable it appends exactly one entry. -/
theorem log_event_amended :
    ∀ (s : SessionState) (writable : Bool) (log : List Event) (etype : String)
      (value : Option PyVal) (now : String),
      ((s.participant_id = Option.none ∨ s.participant_id = some "") →
        log_event s writable log etype value now = Except.ok log) ∧
      (∀ pid, s.participant_id = some pid → pid ≠ "" → writable = false →
        exceptOk (log_event s writable log etype value now) = false) ∧
      (∀ pid, s.participant_id = some pid → pid ≠ "" → writable = true →
        ∃ entry, log_event s writable log etype value now = Except.ok (log ++ [entry])) := by
  intro s writable log etype value now
  refine ⟨?_, ?_, ?_⟩
  · rintro (h | h) <;> simp [log_event, h]
  · intro pid hpid hne hw
    simp [log_event, hpid, hne, hw, exceptOk]
  · intro pid hpid hne hw
    refine ⟨{ participant_id := pid, participant_name := s.participant_name.getD "",
              condition := _current_condition s, task_id := s.task_id.getD "",
              sect := s.current_section_name.getD "Home", event_type := etype,
              event_value := value.getD (PyVal.dict []), timestamp := now }, ?_⟩
    simp [log_event, hpid, hne, hw]

/-- Witness for C2 (amended): before any participant identity exists,
`log_event` returns successfully and leaves the (empty) log unchanged. -/
theorem log_event_amended_witness :
    log_event sessionNoId false [] "task_start" Option.none
      "2026-01-01T00:00:00+00:00" = Except.ok [] :=
  (log_event_amended sessionNoId false [] "task_start" Option.none
    "2026-01-01T00:00:00+00:00").1 (Or.inl rfl)

/-- Claim C1 (code bug): when the LLM Gateway call for a paper raises,
`get_gemini_response` swallows the exception into the sentinel string
`"Error: ..."`, so `filter_by_relevance` sees a verdict that does not
start with `RELEVANT` and DROPS the paper instead of keeping it; the
`except` fail-open branch (verdict `KEPT (error during evaluation)`)
is unreachable for gateway errors.  Evaluated at the failing input. -/
theorem relevance_gateway_error_drops_paper :
    filter_by_relevance geminiDown [paperA]
        "attention mechanisms for image segmentation" = [] ∧
    relevanceVerdicts geminiDown [paperA]
        "attention mechanisms for image segmentation" = ["Error: network unreachable"] ∧
    judgeResponse Option.none = (true, "KEPT (error during evaluation)") := by
  refine ⟨by decide, by decide, rfl⟩

theorem susGo_none (responses : String → Option Int) :
    ∀ (fuel i : Nat) (total : Int) (j : Nat), i ≤ j → j < i + fuel →
      responses (qKey j) = Option.none → susGo responses fuel i total = Option.none := by
  intro fuel
  induction fuel with
  | zero => intro i total j hij hj _; omega
  | succ n ih =>
    intro i total j hij hj hnone
    cases h : responses (qKey i) with
    | none => simp [susGo, h]
    | some v =>
      by_cases hji : j = i
      · rw [hji] at hnone
        rw [hnone] at h
        exact absurd h (by simp)
      · simp only [susGo, h]
        exact ih (i + 1) _ j (by omega) (by omega) hnone

theorem sus_formula (responses : String → Option Int) (v : Nat → Int)
    (hv : ∀ i, 1 ≤ i → i ≤ 10 → responses (qKey i) = some (v i)) :
    _compute_sus_score responses =
      some ((((v 1 - 1) + (5 - v 2) + (v 3 - 1) + (5 - v 4) + (v 5 - 1) +
        (5 - v 6) + (v 7 - 1) + (5 - v 8) + (v 9 - 1) + (5 - v 10) : ℤ) : ℚ) * 2.5) := by
  have h1 := hv 1 (by norm_num) (by norm_num)
  have h2 := hv 2 (by norm_num) (by norm_num)
  have h3 := hv 3 (by norm_num) (by norm_num)
  have h4 := hv 4 (by norm_num) (by norm_num)
  have h5 := hv 5 (by norm_num) (by norm_num)
  have h6 := hv 6 (by norm_num) (by norm_num)
  have h7 := hv 7 (by norm_num) (by norm_num)
  have h8 := hv 8 (by norm_num) (by norm_num)
  have h9 := hv 9 (by norm_num) (by norm_num)
  have h10 := hv 10 (by norm_num) (by norm_num)
  simp only [_compute_sus_score, susGo, h1, h2, h3, h4, h5, h6, h7, h8, h9, h10,
    Option.map_some]
  norm_num

/-- Claim C3: the SUS score is `None` unless all ten responses `Q1..Q10`
are present; when all are present it equals 2.5 times the sum of
`(value - 1)` over odd items and `(5 - value)` over even items; all odd
1 / even 5 gives 0, all odd 5 / even 1 gives 100. -/
theorem sus_score_spec :
    (∀ responses : String → Option Int,
      _compute_sus_score responses ≠ Option.none →
      ∀ i, 1 ≤ i → i ≤ 10 → responses (qKey i) ≠ Option.none) ∧
    (∀ (responses : String → Option Int) (v : Nat → Int),
      (∀ i, 1 ≤ i → i ≤ 10 → responses (qKey i) = some (v i)) →
      _compute_sus_score responses =
        some ((((v 1 - 1) + (5 - v 2) + (v 3 - 1) + (5 - v 4) + (v 5 - 1) +
          (5 - v 6) + (v 7 - 1) + (5 - v 8) + (v 9 - 1) + (5 - v 10) : ℤ) : ℚ) * 2.5)) ∧
    _compute_sus_score susAllLow = some 0 ∧
    _compute_sus_score susAllHigh = some 100 := by
  refine ⟨?_, sus_formula, ?_, ?_⟩
  · intro responses h i h1 h10 hnone
    apply h
    have hz := susGo_none responses 10 1 0 i h1 (by omega) hnone
    simp [_compute_sus_score, hz]
  · have h := sus_formula susAllLow (fun i => if i % 2 = 1 then 1 else 5)
      (by intro i hl hu; interval_cases i <;> decide)
    rw [h]
    norm_num
  · have h := sus_formula susAllHigh (fun i => if i % 2 = 1 then 5 else 1)
      (by intro i hl hu; interval_cases i <;> decide)
    rw [h]
    norm_num

/-- Witness for C3: uniform all-3 responses are complete and score
exactly 50. -/
theorem sus_score_spec_witness :
    _compute_sus_score (fun _ => some 3) = some 50 := by
  have h := sus_score_spec.2.1 (fun _ => some 3) (fun _ => 3) (fun _ _ _ => rfl)
  rw [h]
  norm_num

theorem chunksOf_pos (n : Nat) (l : List String) (hn : n ≠ 0) (hl : l ≠ []) :
    chunksOf n l = l.take n :: chunksOf n (l.drop n) := by
  rw [chunksOf]
  simp [hn, hl]

/-- Claim C8: whenever parsing the LLM extraction output fails or the
parsed value is not a list of lists, `extract_search_keywords` returns
the fallback — the first chunk of the description's words grouped in
chunks of up to 4, as a single keyword set — which is always exactly one
non-empty keyword set (the whole-description singleton when the
description has no words). -/
theorem extract_fallback_spec :
    ∀ (gemini : String → Except String (Option String))
      (loads : String → Option PyVal) (description : String),
      ((∀ r, get_gemini_response gemini (extractPrompt description) = some r →
          ∀ kw, loads (cleanResponse r) = some kw → isListOfLists kw = false) →
        extract_search_keywords gemini loads description = fallbackKeywords description) ∧
      fallbackKeywords description ≠ [] ∧
      (∀ s ∈ fallbackKeywords description, s ≠ []) ∧
      (pySplitWs description ≠ [] →
        fallbackKeywords description =
          [((pySplitWs description).take
            (min 4 (pySplitWs description).length)).map PyVal.str]) ∧
      (pySplitWs description = [] →
        fallbackKeywords description = [[PyVal.str description]]) := by
  intro gemini loads description
  have hE : pySplitWs description = [] →
      fallbackKeywords description = [[PyVal.str description]] := by
    intro hw
    simp [fallbackKeywords, hw]
  have hD : pySplitWs description ≠ [] →
      fallbackKeywords description =
        [((pySplitWs description).take
          (min 4 (pySplitWs description).length)).map PyVal.str] := by
    intro hw
    have hlen : 0 < (pySplitWs description).length := List.length_pos.mpr hw
    have hcs : min 4 (pySplitWs description).length ≠ 0 := by omega
    simp only [fallbackKeywords]
    rw [if_neg hcs, chunksOf_pos _ _ hcs hw]
  refine ⟨?_, ?_, ?_, hD, hE⟩
  · intro h
    cases hr : get_gemini_response gemini (extractPrompt description) with
    | none => simp [extract_search_keywords, hr]
    | some r =>
      cases hl : loads (cleanResponse r) with
      | none => simp [extract_search_keywords, hr, hl]
      | some kw => simp [extract_search_keywords, hr, hl, h r hr kw hl]
  · by_cases hw : pySplitWs description = []
    · simp [hE hw]
    · simp [hD hw]
  · intro s hs
    by_cases hw : pySplitWs description = []
    · rw [hE hw] at hs
      simp only [List.mem_singleton] at hs
      simp [hs]
    · rw [hD hw] at hs
      simp only [List.mem_singleton] at hs
      have hlen : 0 < (pySplitWs description).length := List.length_pos.mpr hw
      rw [hs]
      simp only [ne_eq, List.map_eq_nil_iff, List.take_eq_nil_iff, not_or]
      exact ⟨by omega, hw⟩

/-- Witness for C8: with an unreachable gateway and a parser that always
fails, a five-word description yields exactly its first four words as the
single keyword set. -/
theorem extract_fallback_spec_witness :
    extract_search_keywords geminiDown (fun _ => Option.none)
        "attention mechanisms for image segmentation" =
      [[PyVal.str "attention", PyVal.str "mechanisms", PyVal.str "for",
        PyVal.str "image"]] := by
  have h := extract_fallback_spec geminiDown (fun _ => Option.none)
    "attention mechanisms for image segmentation"
  have h1 := h.1 (by intro r _ kw hkw; exact absurd hkw (by simp))
  have h4 := h.2.2.2.1 (by decide)
  rw [h1, h4]
  rfl

theorem lookup_or_append {β : Type} (l1 l2 : List (String × β)) (a : String) :
    (l1 ++ l2).lookup a = ((l1.lookup a).or (l2.lookup a)) := by
  induction l1 with
  | nil => simp
  | cons h t ih =>
    cases h with | mk k v =>
    by_cases hk : a = k
    · simp [List.lookup, hk]
    · have hb : (a == k) = false := beq_eq_false_iff_ne.mpr hk
      simp [List.lookup, hb, ih]


theorem lookup_cons_self {β : Type} (k : String) (v : β) (t : List (String × β)) :
    ((k, v) :: t).lookup k = some v := by
  simp [List.lookup]

theorem lookup_cons_ne {β : Type} (a k : String) (v : β) (t : List (String × β))
    (h : ¬a = k) : ((k, v) :: t).lookup a = t.lookup a := by
  have hb : (a == k) = false := beq_eq_false_iff_ne.mpr h
  simp [List.lookup, hb]

theorem lookup_insertInner (inner : List (String × ℚ)) (s : String) (d : ℚ) (s' : String) :
    ((insertInner inner s d).lookup s').getD 0 =
      (inner.lookup s').getD 0 + (if s = s' then d else 0) := by
  induction inner with
  | nil =>
    by_cases h : s' = s
    · subst h
      rw [show insertInner [] s' d = [(s', d)] from rfl, lookup_cons_self]
      simp
    · have h2 : ¬(s = s') := fun e => h e.symm
      rw [show insertInner [] s d = [(s, d)] from rfl, lookup_cons_ne _ _ _ _ h]
      simp [List.lookup, h2]
  | cons hd t ih =>
    obtain ⟨a, v⟩ := hd
    by_cases has : a = s
    · subst has
      rw [show insertInner ((a, v) :: t) a d = (a, v + d) :: t from by simp [insertInner]]
      by_cases h : s' = a
      · subst h
        rw [lookup_cons_self, lookup_cons_self]
        simp
      · have h2 : ¬(s' = a) := h
        have h3 : ¬(a = s') := fun e => h e.symm
        rw [lookup_cons_ne _ _ _ _ h2, lookup_cons_ne _ _ _ _ h2]
        simp [h3]
    · rw [show insertInner ((a, v) :: t) s d = (a, v) :: insertInner t s d from by
        simp [insertInner, has]]
      by_cases h : s' = a
      · subst h
        have h2 : ¬(s = s') := fun e => has e.symm
        rw [lookup_cons_self, lookup_cons_self]
        simp [h2]
      · rw [lookup_cons_ne _ _ _ _ h, lookup_cons_ne _ _ _ _ h]
        exact ih

theorem getTime_insertTime (tm : List (String × List (String × ℚ)))
    (c s : String) (d : ℚ) (c' s' : String) :
    getTime (insertTime tm c s d) c' s' =
      getTime tm c' s' + (if c = c' ∧ s = s' then d else 0) := by
  induction tm with
  | nil =>
    rw [show insertTime [] c s d = [(c, [(s, d)])] from rfl]
    by_cases h : c' = c
    · subst h
      rw [getTime, lookup_cons_self]
      simp only [getTime, List.lookup]
      by_cases hs : s' = s
      · subst hs
        simp
      · have h2 : ¬(s = s') := fun e => hs e.symm
        have hb : (s' == s) = false := beq_eq_false_iff_ne.mpr hs
        simp [hb, h2]
    · have h2 : ¬(c = c') := fun e => h e.symm
      rw [getTime, lookup_cons_ne _ _ _ _ h]
      simp [getTime, List.lookup, h2]
  | cons hd t ih =>
    obtain ⟨a, inner⟩ := hd
    by_cases hac : a = c
    · subst hac
      rw [show insertTime ((a, inner) :: t) a s d = (a, insertInner inner s d) :: t from by
        simp [insertTime]]
      by_cases h : c' = a
      · subst h
        rw [getTime, lookup_cons_self, getTime, lookup_cons_self]
        simp only []
        rw [lookup_insertInner]
        simp
      · have h3 : ¬(a = c') := fun e => h e.symm
        rw [getTime, lookup_cons_ne _ _ _ _ h, getTime, lookup_cons_ne _ _ _ _ h]
        simp [h3, getTime]
    · rw [show insertTime ((a, inner) :: t) c s d = (a, inner) :: insertTime t c s d from by
        simp [insertTime, hac]]
      by_cases h : c' = a
      · subst h
        have h2 : ¬(c = c') := fun e => hac e.symm
        rw [getTime, lookup_cons_self, getTime, lookup_cons_self]
        simp [h2]
      · rw [getTime, lookup_cons_ne _ _ _ _ h, getTime, lookup_cons_ne _ _ _ _ h]
        exact ih

theorem getTime_ensureCond (tm : List (String × List (String × ℚ)))
    (c0 c s : String) : getTime (ensureCond tm c0) c s = getTime tm c s := by
  by_cases h : (tm.lookup c0).isSome = true
  · simp only [ensureCond]
    rw [if_pos h]
  · simp only [ensureCond]
    rw [if_neg h, getTime, lookup_or_append]
    cases htm : tm.lookup c with
    | some inner => simp [getTime, htm]
    | none =>
      simp only [Option.or, getTime]
      by_cases hc : c = c0
      · subst hc
        rw [lookup_cons_self, htm]
        simp [List.lookup]
      · rw [lookup_cons_ne _ _ _ _ hc, htm]
        simp [List.lookup]

theorem hasCondKey_ensureCond_self (tm : List (String × List (String × ℚ)))
    (c0 : String) : hasCondKey (ensureCond tm c0) c0 = true := by
  by_cases h : (tm.lookup c0).isSome = true
  · simp only [hasCondKey, ensureCond]
    rw [if_pos h]
    exact h
  · simp only [hasCondKey, ensureCond]
    rw [if_neg h, lookup_or_append]
    cases htm : tm.lookup c0 with
    | some inner =>
      rw [htm] at h
      simp at h
    | none =>
      rw [lookup_cons_self]
      simp [Option.or]

theorem hasCondKey_ensureCond_mono (tm : List (String × List (String × ℚ)))
    (c0 c : String) (h : hasCondKey tm c = true) :
    hasCondKey (ensureCond tm c0) c = true := by
  by_cases h0 : (tm.lookup c0).isSome = true
  · simp only [hasCondKey, ensureCond]
    rw [if_pos h0]
    exact h
  · simp only [hasCondKey, ensureCond]
    rw [if_neg h0, lookup_or_append]
    simp only [hasCondKey] at h
    cases htm : tm.lookup c with
    | some inner => simp [Option.or]
    | none =>
      rw [htm] at h
      simp at h

theorem capped_gap_eq_min (d : ℚ) : (if d > 300 then (300 : ℚ) else d) = min d 300 := by
  rw [min_def]
  split_ifs <;> first | rfl | linarith

theorem gapSum_cons (f : String → ℚ) (e1 e2 : Event) (rest : List Event) (c s : String) :
    gapSum f (e1 :: e2 :: rest) c s =
      (if e1.condition = c ∧ e1.sect = s then
        min (f e2.timestamp - f e1.timestamp) 300 else 0) + gapSum f (e2 :: rest) c s := by
  simp only [gapSum, List.tail_cons, List.zip_cons_cons]
  by_cases h : e1.condition = c ∧ e1.sect = s
  · simp [h]
  · simp [h]

theorem timeLoop_sum (f : String → ℚ) :
    ∀ (events : List Event) (tm : List (String × List (String × ℚ))) (c s : String),
      getTime (timeLoop f events tm) c s = getTime tm c s + gapSum f events c s := by
  intro events
  induction events with
  | nil =>
    intro tm c s
    simp [timeLoop, gapSum]
  | cons e1 tl ih =>
    intro tm c s
    cases tl with
    | nil => simp [timeLoop, gapSum]
    | cons e2 rest =>
      rw [timeLoop, ih, getTime_insertTime, gapSum_cons, capped_gap_eq_min]
      ring

/-- Claim C4: the time-per-condition-per-section table attributes each
consecutive inter-event gap, capped at 300 seconds, to the earlier
event's `(condition, section)` key, and always contains both canonical
condition keys; in particular two events 400 seconds apart contribute
300, not 400. -/
theorem time_metrics_table_spec :
    (∀ (f : String → ℚ) (events : List Event) (c s : String),
      getTime ((compute_derived_metrics f events).time_metrics) c s = gapSum f events c s ∧
      hasCondKey ((compute_derived_metrics f events).time_metrics) "A (Manual model)" = true ∧
      hasCondKey ((compute_derived_metrics f events).time_metrics) "B (AI model)" = true) ∧
    getTime ((compute_derived_metrics tsNum
        [mkEvent "paper_open" "0", mkEvent "paper_open" "400"]).time_metrics)
      "A (Manual model)" "Home" = 300 := by
  have hmain : ∀ (f : String → ℚ) (events : List Event) (c s : String),
      getTime ((compute_derived_metrics f events).time_metrics) c s = gapSum f events c s ∧
      hasCondKey ((compute_derived_metrics f events).time_metrics) "A (Manual model)" = true ∧
      hasCondKey ((compute_derived_metrics f events).time_metrics) "B (AI model)" = true := by
    intro f events c s
    rw [time_metrics_eq]
    refine ⟨?_, ?_, ?_⟩
    · rw [timeMetricsOf, getTime_ensureCond, getTime_ensureCond, timeLoop_sum]
      simp [getTime, List.lookup]
    · exact hasCondKey_ensureCond_mono _ _ _ (hasCondKey_ensureCond_self _ _)
    · exact hasCondKey_ensureCond_self _ _
  refine ⟨hmain, ?_⟩
  rw [(hmain tsNum [mkEvent "paper_open" "0", mkEvent "paper_open" "400"]
    "A (Manual model)" "Home").1]
  rw [gapSum_cons]
  have hrest : gapSum tsNum [mkEvent "paper_open" "400"] "A (Manual model)" "Home" = 0 := by
    simp [gapSum]
  rw [hrest]
  have hcond : (mkEvent "paper_open" "0").condition = "A (Manual model)" ∧
      (mkEvent "paper_open" "0").sect = "Home" := ⟨rfl, rfl⟩
  rw [if_pos hcond]
  have h400 : tsNum (mkEvent "paper_open" "400").timestamp = 400 := by
    norm_num [tsNum, mkEvent, show parseNatStr "400" = 400 from by decide]
  have h0 : tsNum (mkEvent "paper_open" "0").timestamp = 0 := by
    norm_num [tsNum, mkEvent, show parseNatStr "0" = 0 from by decide]
  rw [h400, h0]
  norm_num [min_def]


theorem contains_swap (x a : String) (l1 l2 : List String) :
    ((a :: l1) ++ l2).contains x = (l1 ++ (a :: l2)).contains x := by
  simp [Bool.or_left_comm]

theorem dedupGo_cons_eq (s t : List String) (q : Paper) (rest : List Paper) :
    dedupGo s t (q :: rest) =
      if strTruthy q.id = true ∧ q.id.getD "" ∈ s then dedupGo s t rest
      else if ¬normTitle q = "" ∧ normTitle q ∈ t then dedupGo s t rest
      else q :: dedupGo (if strTruthy q.id = true then q.id.getD "" :: s else s)
        (if ¬normTitle q = "" then normTitle q :: t else t) rest := by
  simp only [dedupGo]
  split_ifs <;> simp_all

theorem dedupGo_sublist : ∀ (l : List Paper) (s t : List String),
    (dedupGo s t l).Sublist l := by
  intro l
  induction l with
  | nil => intro s t; simp [dedupGo]
  | cons q rest ih =>
    intro s t
    rw [dedupGo_cons_eq]
    split_ifs
    · exact (ih s t).cons q
    · exact (ih s t).cons q
    all_goals exact (ih _ _).cons₂ q

theorem keptIds_cons (q : Paper) (G : List Paper) :
    keptIds (q :: G) =
      if strTruthy q.id = true then q.id.getD "" :: keptIds G else keptIds G := by
  by_cases h : strTruthy q.id = true <;> simp [keptIds, List.filterMap_cons, h]

theorem keptTitles_cons (q : Paper) (G : List Paper) :
    keptTitles (q :: G) =
      if ¬normTitle q = "" then normTitle q :: keptTitles G else keptTitles G := by
  by_cases h : normTitle q = "" <;> simp [keptTitles, h]

theorem mem_swap (x a : String) (l1 l2 : List String) :
    x ∈ (a :: l1) ++ l2 ↔ x ∈ l1 ++ (a :: l2) := by
  simp only [List.mem_append, List.mem_cons]
  tauto

theorem dedupGo_append :
    ∀ (l : List Paper) (s t : List String) (p : Paper),
      dedupGo s t (l ++ [p]) =
        dedupGo s t l ++
          (if (strTruthy p.id = true ∧ p.id.getD "" ∈ s ++ keptIds (dedupGo s t l)) ∨
              (¬normTitle p = "" ∧ normTitle p ∈ t ++ keptTitles (dedupGo s t l))
            then [] else [p]) := by
  intro l
  induction l with
  | nil =>
    intro s t p
    rw [List.nil_append, dedupGo_cons_eq]
    simp only [show dedupGo s t ([] : List Paper) = [] from rfl, keptIds, keptTitles,
      List.filterMap_nil, List.map_nil, List.filter_nil, List.append_nil]
    split_ifs <;> first | rfl | tauto
  | cons q l ih =>
    intro s t p
    rw [List.cons_append, dedupGo_cons_eq, dedupGo_cons_eq]
    by_cases h1 : strTruthy q.id = true ∧ q.id.getD "" ∈ s
    · rw [if_pos h1, if_pos h1]
      exact ih s t p
    · rw [if_neg h1, if_neg h1]
      by_cases h2 : ¬normTitle q = "" ∧ normTitle q ∈ t
      · rw [if_pos h2, if_pos h2]
        exact ih s t p
      · rw [if_neg h2, if_neg h2, ih, List.cons_append]
        congr 1
        congr 1
        apply if_congr ?_ rfl rfl
        rw [keptIds_cons, keptTitles_cons]
        by_cases hq1 : strTruthy q.id = true <;> by_cases hq2 : normTitle q = "" <;>
          simp only [hq1, hq2, not_true, not_false_iff, if_true, if_false,
            ite_true, ite_false, mem_swap] <;> tauto

theorem dedupGo_count_vacuous (p : Paper) (hid : strTruthy p.id = false)
    (ht : normTitle p = "") :
    ∀ (l : List Paper) (s t : List String), (dedupGo s t l).count p = l.count p := by
  intro l
  induction l with
  | nil => intro s t; rfl
  | cons q rest ih =>
    intro s t
    rw [dedupGo_cons_eq]
    by_cases h1 : strTruthy q.id = true ∧ q.id.getD "" ∈ s
    · rw [if_pos h1]
      have hne : ¬p = q := by
        intro e
        rw [e] at hid
        rw [hid] at h1
        simp at h1
      have hne2 : ¬q = p := fun e => hne e.symm
      rw [ih, List.count_cons]
      simp [hne, hne2]
    · rw [if_neg h1]
      by_cases h2 : ¬normTitle q = "" ∧ normTitle q ∈ t
      · rw [if_pos h2]
        have hne : ¬p = q := by
          intro e
          rw [e] at ht
          exact h2.1 ht
        have hne2 : ¬q = p := fun e => hne e.symm
        rw [ih, List.count_cons]
        simp [hne, hne2]
      · rw [if_neg h2, List.count_cons, List.count_cons, ih]

theorem dedupGo_idem : ∀ (l : List Paper) (s t : List String),
    dedupGo s t (dedupGo s t l) = dedupGo s t l := by
  intro l
  induction l with
  | nil => intro s t; rfl
  | cons q rest ih =>
    intro s t
    rw [dedupGo_cons_eq]
    by_cases h1 : strTruthy q.id = true ∧ q.id.getD "" ∈ s
    · rw [if_pos h1]
      exact ih s t
    · rw [if_neg h1]
      by_cases h2 : ¬normTitle q = "" ∧ normTitle q ∈ t
      · rw [if_pos h2]
        exact ih s t
      · rw [if_neg h2, dedupGo_cons_eq, if_neg h1, if_neg h2, ih]

/-- Claim C5: `deduplicate_papers` is an order-preserving single-pass
subselection; a paper appended to the input is dropped exactly when its
truthy id or its non-empty normalised title is already a key of a KEPT
paper (the seen sets grow only as items are kept); and a paper with
neither an id nor a non-empty title is never deduplicated away. -/
theorem dedup_spec :
    (∀ papers : List Paper, (deduplicate_papers papers).Sublist papers) ∧
    (∀ (papers : List Paper) (p : Paper),
      deduplicate_papers (papers ++ [p]) =
        deduplicate_papers papers ++
          (if (strTruthy p.id = true ∧
                p.id.getD "" ∈ keptIds (deduplicate_papers papers)) ∨
              (¬normTitle p = "" ∧
                normTitle p ∈ keptTitles (deduplicate_papers papers))
            then [] else [p])) ∧
    (∀ (papers : List Paper) (p : Paper), strTruthy p.id = false → normTitle p = "" →
      (deduplicate_papers papers).count p = papers.count p) := by
  refine ⟨?_, ?_, ?_⟩
  · intro papers
    exact dedupGo_sublist papers [] []
  · intro papers p
    have h := dedupGo_append papers [] [] p
    simpa [deduplicate_papers] using h
  · intro papers p hid ht
    exact dedupGo_count_vacuous p hid ht papers [] []

/-- Witness for C5: a paper with no id and no title occurring twice is
kept twice, never deduplicated away. -/
theorem dedup_spec_witness :
    (deduplicate_papers [paperVacuous, paperVacuous]).count paperVacuous = 2 := by
  have h := dedup_spec.2.2 [paperVacuous, paperVacuous] paperVacuous rfl rfl
  rw [h]
  decide

/-- Claim C6: `deduplicate_papers` is idempotent, and of two papers with
identical non-empty case-folded whitespace-trimmed titles but different
ids only the first-seen one survives. -/
theorem dedup_idempotent_spec :
    (∀ papers : List Paper,
      deduplicate_papers (deduplicate_papers papers) = deduplicate_papers papers) ∧
    (∀ p q : Paper, p.id ≠ q.id → normTitle p = normTitle q → normTitle p ≠ "" →
      deduplicate_papers [p, q] = [p]) := by
  constructor
  · intro papers
    exact dedupGo_idem papers [] []
  · intro p q _ ht hne
    show dedupGo [] [] [p, q] = [p]
    rw [dedupGo_cons_eq]
    have hn1 : ¬(strTruthy p.id = true ∧ p.id.getD "" ∈ ([] : List String)) := by
      simp
    have hn2 : ¬(¬normTitle p = "" ∧ normTitle p ∈ ([] : List String)) := by
      simp
    rw [if_neg hn1, if_neg hn2]
    have ht' : (if ¬normTitle p = "" then normTitle p :: ([] : List String) else []) =
        [normTitle p] := by
      simp [hne]
    rw [ht', dedupGo_cons_eq]
    by_cases hg1 : strTruthy q.id = true ∧ q.id.getD "" ∈
        (if strTruthy p.id = true then p.id.getD "" :: ([] : List String) else [])
    · rw [if_pos hg1]
      rfl
    · rw [if_neg hg1,
        if_pos ⟨by rw [← ht]; exact hne, by rw [← ht]; exact List.mem_singleton.mpr rfl⟩]
      rfl

/-- Witness for C6: two fixture papers with different ids whose titles
differ only by case and surrounding whitespace collapse to the
first-seen one. -/
theorem dedup_idempotent_spec_witness :
    deduplicate_papers [paperA, paperB] = [paperA] :=
  dedup_idempotent_spec.2 paperA paperB (by decide) (by decide) (by decide)
